import Mathlib

/-!
Shallow embedding of the import & field-mapping pipeline of `av_designer`
(`src/src-tauri/src/import/{parser.rs, csv_parser.rs, excel.rs}`), together
with theorems settling the specification claims about it.

Machine strings are modelled as Lean `String` with character-list operations;
Rust's `str::trim` is modelled on the ASCII whitespace characters recognised by
`Char.isWhitespace` (the code's data is spreadsheet cell text, and no claim
depends on exotic Unicode whitespace), and `str::to_lowercase` by ASCII
per-character lowercasing.  File I/O is abstracted away: each decoder is
modelled as a function of the logical record sequence its underlying reader
yields.
-/

namespace AvDesigner

/-- Rust `str::to_lowercase`, modelled as ASCII per-character lowercasing over
the character list (Rust's full Unicode lowercasing differs only on non-ASCII
code points, which none of the matching patterns contain). -/
def toLowerStr (s : String) : String :=
  String.mk (s.data.map Char.toLower)

/-- Rust `str::trim`: drop whitespace characters from both ends of a string. -/
def trimStr (s : String) : String :=
  String.mk (((s.data.dropWhile Char.isWhitespace).reverse.dropWhile Char.isWhitespace).reverse)

/-- Rust `s.replace(['$', ',', ' '], "")` from `validate_single_row`: remove every
dollar sign, comma and space character. -/
def stripMoney (s : String) : String :=
  String.mk (s.data.filter (fun c => !(c == '$' || c == ',' || c == ' ')))

/-- Drop one optional leading sign character, as in the grammar of Rust's
`f64::from_str`. -/
def stripSign (cs : List Char) : List Char :=
  match cs with
  | '+' :: rest => rest
  | '-' :: rest => rest
  | _ => cs

/-- Exponent part of the `f64::from_str` grammar: optional sign then a
non-empty digit run. -/
def expPartOk (cs : List Char) : Bool :=
  let cs := stripSign cs
  !cs.isEmpty && cs.all Char.isDigit

/-- Mantissa of the `f64::from_str` grammar:
`Digits | Digits '.' Digits? | '.' Digits`. -/
def mantissaOk (cs : List Char) : Bool :=
  let ds := cs.takeWhile Char.isDigit
  let rest := cs.dropWhile Char.isDigit
  match rest with
  | [] => !ds.isEmpty
  | '.' :: frac => (!ds.isEmpty || !frac.isEmpty) && frac.all Char.isDigit
  | _ => false

/-- Syntactic success of Rust `str::parse::<f64>()`.  `f64::from_str` accepts
`Sign? ('inf' | 'infinity' | 'nan' | Number)` case-insensitively, where
`Number ::= (Digits | Digits '.' Digits? | '.' Digits) Exp?` and
`Exp ::= ('e'|'E') Sign? Digits`; parsing never fails on a string matching this
grammar (out-of-range values round to infinity), so `parse::<f64>().is_err()`
is exactly the failure of this syntactic predicate. -/
def parsesAsF64 (s : String) : Bool :=
  let cs := stripSign ((toLowerStr s).data)
  if cs = "inf".data ∨ cs = "infinity".data ∨ cs = "nan".data then true
  else
    let mant := cs.takeWhile (fun c => c ≠ 'e')
    let rest := cs.dropWhile (fun c => c ≠ 'e')
    match rest with
    | [] => mantissaOk mant
    | _ :: ex => mantissaOk mant && expPartOk ex

/-- `ImportError` from `parser.rs`. -/
inductive ImportError where
  | FileNotFound (path : String)
  | ReadError (msg : String)
  | ParseError (msg : String)
  | UnsupportedFormat (ext : String)
  | EmptyFile
  | PasswordProtected
  | ValidationError (msg : String)
deriving DecidableEq, Repr

/-- `FileType` from `parser.rs`. -/
inductive FileType where
  | Xlsx
  | Csv
  | Pdf
deriving DecidableEq, Repr

/-- `ParsedRow` from `parser.rs`. -/
structure ParsedRow where
  row_number : Nat
  cells : List String
deriving DecidableEq, Repr

/-- `ParsedFile` from `parser.rs`. -/
structure ParsedFile where
  file_name : String
  file_type : FileType
  headers : List String
  rows : List ParsedRow
  total_rows : Nat
  truncated : Bool
deriving DecidableEq, Repr

/-- `EquipmentField` from `parser.rs`. -/
inductive EquipmentField where
  | Manufacturer
  | Model
  | Sku
  | Category
  | Subcategory
  | Description
  | Cost
  | Msrp
  | Height
  | Width
  | Depth
  | Weight
  | Voltage
  | Wattage
  | Certifications
  | ImageUrl
deriving DecidableEq, Repr

/-- `ColumnMapping` from `parser.rs`. -/
structure ColumnMapping where
  source_column : Nat
  source_header : String
  target_field : Option EquipmentField
deriving DecidableEq, Repr

/-- `ValidationStatus` from `parser.rs`. -/
inductive ValidationStatus where
  | Valid
  | Incomplete
  | Invalid
deriving DecidableEq, Repr

/-- `MatchType` from `parser.rs`. -/
inductive MatchType where
  | New
  | UpdateSku
  | UpdateFallback
deriving DecidableEq, Repr

/-- `ValidationResult` from `parser.rs`. -/
structure ValidationResult where
  row_number : Nat
  status : ValidationStatus
  match_type : Option MatchType
  existing_equipment_id : Option String
  missing_fields : List EquipmentField
  errors : List String
deriving DecidableEq, Repr

/-- `MAX_ROWS` from `parser.rs`. -/
def MAX_ROWS : Nat := 10000

/-- `PREVIEW_ROWS` from `parser.rs`. -/
def PREVIEW_ROWS : Nat := 100

/-- The `required` array of `validate_single_row`. -/
def requiredFields : List EquipmentField :=
  [EquipmentField.Manufacturer, EquipmentField.Model, EquipmentField.Sku, EquipmentField.Cost]

/-- The `has_value` computation of `validate_single_row`: some mapping targets
the field and its source column holds a cell whose trimmed value is non-empty
(`mappings.iter().any(...)` with `row.cells.get(...).map(...).unwrap_or(false)`). -/
def hasRequiredValue (row : ParsedRow) (mappings : List ColumnMapping)
    (field : EquipmentField) : Bool :=
  mappings.any (fun m =>
    if m.target_field = some field then
      ((row.cells[m.source_column]?).map (fun v => !(trimStr v).isEmpty)).getD false
    else false)

/-- The `missing_fields` accumulation of `validate_single_row`. -/
def missingRequiredFields (row : ParsedRow) (mappings : List ColumnMapping) :
    List EquipmentField :=
  requiredFields.filter (fun field => !hasRequiredValue row mappings field)

/-- The cost-format block of `validate_single_row`: find the first mapping
targeting `Cost`; if its column holds a cell, strip `$`/`,`/space and flag the
raw value when the remainder is non-empty yet not `f64`-parsable. -/
def costErrors (row : ParsedRow) (mappings : List ColumnMapping) : List String :=
  match mappings.find? (fun m => decide (m.target_field = some EquipmentField.Cost)) with
  | some m =>
    match row.cells[m.source_column]? with
    | some costStr =>
      let cleaned := stripMoney costStr
      if !cleaned.isEmpty && !parsesAsF64 cleaned then
        ["Invalid cost format: '" ++ costStr ++ "'"]
      else []
    | none => []
  | none => []

/-- The MSRP-format block of `validate_single_row`, identical to the cost block
but for the first mapping targeting `Msrp`. -/
def msrpErrors (row : ParsedRow) (mappings : List ColumnMapping) : List String :=
  match mappings.find? (fun m => decide (m.target_field = some EquipmentField.Msrp)) with
  | some m =>
    match row.cells[m.source_column]? with
    | some msrpStr =>
      let cleaned := stripMoney msrpStr
      if !cleaned.isEmpty && !parsesAsF64 cleaned then
        ["Invalid MSRP format: '" ++ msrpStr ++ "'"]
      else []
    | none => []
  | none => []

/-- `validate_single_row` from `parser.rs`. -/
def validate_single_row (row : ParsedRow) (mappings : List ColumnMapping) : ValidationResult :=
  let missing_fields := missingRequiredFields row mappings
  let errors := costErrors row mappings ++ msrpErrors row mappings
  let status :=
    if !errors.isEmpty then ValidationStatus.Invalid
    else if !missing_fields.isEmpty then ValidationStatus.Incomplete
    else ValidationStatus.Valid
  { row_number := row.row_number
    status := status
    match_type := some MatchType.New
    existing_equipment_id := none
    missing_fields := missing_fields
    errors := errors }

/-- `validate_rows` from `parser.rs`: map `validate_single_row` over the rows
and wrap the list in `Ok`. -/
def validate_rows (rows : List ParsedRow) (mappings : List ColumnMapping) :
    Except ImportError (List ValidationResult) :=
  Except.ok (rows.map (fun row => validate_single_row row mappings))

/-! ## HeaderMapper (`suggest_field_for_header` from `parser.rs`) -/

/-- Rust `str::contains(pat)` for a string pattern: substring containment.
For the ASCII patterns used by the header mapper, byte-level containment in
UTF-8 coincides with character-list containment. -/
def containsSub (s pat : String) : Bool :=
  decide (pat.data <:+: s.data)

/-- The `high_confidence_mappings` table of `suggest_field_for_header`, in
declaration order. -/
def highConfidenceMappings : List (List String × EquipmentField) :=
  [ (["manufacturer", "mfg", "brand", "vendor"], EquipmentField.Manufacturer),
    (["model", "model number", "model #", "model no"], EquipmentField.Model),
    (["sku", "part number", "part #", "part no", "item number", "item #", "pn"],
      EquipmentField.Sku),
    (["category", "cat"], EquipmentField.Category),
    (["subcategory", "sub-category", "subcat"], EquipmentField.Subcategory),
    (["description", "desc", "product description", "item description"],
      EquipmentField.Description),
    (["cost", "unit cost", "dealer cost", "net cost", "buy price"], EquipmentField.Cost),
    (["msrp", "list price", "retail", "list", "srp"], EquipmentField.Msrp),
    (["height", "h", "height (in)", "height (inches)"], EquipmentField.Height),
    (["width", "w", "width (in)", "width (inches)"], EquipmentField.Width),
    (["depth", "d", "depth (in)", "depth (inches)", "length"], EquipmentField.Depth),
    (["weight", "wt", "weight (lbs)", "weight (lb)"], EquipmentField.Weight),
    (["voltage", "volt", "v"], EquipmentField.Voltage),
    (["wattage", "watts", "power", "w"], EquipmentField.Wattage),
    (["certifications", "certs", "platform", "platforms"], EquipmentField.Certifications),
    (["image", "image url", "imageurl", "picture", "photo"], EquipmentField.ImageUrl) ]

/-- The tier-1 double loop of `suggest_field_for_header`: return the field of
the first table entry (in declaration order) one of whose patterns equals the
normalized header. -/
def tier1Lookup (lower : String) : Option EquipmentField :=
  highConfidenceMappings.findSome? (fun pf =>
    if pf.1.any (fun pat => lower == pat) then some pf.2 else none)

/-- `suggest_field_for_header` from `parser.rs`: normalize (lowercase, trim),
try the exact-alias table at confidence 0.95, then the substring fallbacks at
0.7/0.6, else no suggestion at 0.0.  Confidence values are embedded in `ℚ`. -/
def suggest_field_for_header (header : String) : Option EquipmentField × ℚ :=
  let lower := trimStr (toLowerStr header)
  match tier1Lookup lower with
  | some field => (some field, 0.95)
  | none =>
    if containsSub lower "manufacturer" || containsSub lower "mfg"
        || containsSub lower "brand" then
      (some EquipmentField.Manufacturer, 0.7)
    else if containsSub lower "model" then
      (some EquipmentField.Model, 0.7)
    else if containsSub lower "sku" || containsSub lower "part"
        || containsSub lower "item" then
      (some EquipmentField.Sku, 0.7)
    else if containsSub lower "cost" || containsSub lower "price" then
      if containsSub lower "list" || containsSub lower "msrp"
          || containsSub lower "retail" then
        (some EquipmentField.Msrp, 0.6)
      else
        (some EquipmentField.Cost, 0.6)
    else if containsSub lower "desc" then
      (some EquipmentField.Description, 0.7)
    else
      (none, 0.0)

/-! ## Decoders (`csv_parser.rs` and `excel.rs`)

Both decoders are modelled past their I/O layer: the CSV decoder receives the
header record and the list of data-record results its `csv` reader yields
(`none` standing for a record the reader failed to parse, which the code
skips), and the workbook decoder receives the cell grid of the first sheet
with `cell_to_string` already applied.  The CSV reader's `Trim::All` cell
trimming is not modelled: no claim concerns intra-cell whitespace of decoder
output, and blankness below is determined through `trimStr` in either case. -/

/-- A data record as produced by the CSV reader: `none` models a record the
reader reported as malformed (`Err(_)` in the `filter_map`). -/
abbrev CsvRecord := Option (List String)

/-- Whether a record survives the decoders' `filter_map`: it is well-formed
and some cell is non-empty after trimming. -/
def keepRecord : CsvRecord → Bool
  | none => false
  | some cells => !cells.all (fun c => (trimStr c).isEmpty)

/-- The `enumerate().filter_map(...)` body shared by both decoders: walk the
records with their index, skip malformed and all-blank records, and number the
kept ones `idx + 2` (1-indexed source position, header consumes row 1). -/
def extractRows (idx : Nat) : List CsvRecord → List ParsedRow
  | [] => []
  | none :: rest => extractRows (idx + 1) rest
  | some cells :: rest =>
    if cells.all (fun c => (trimStr c).isEmpty) then
      extractRows (idx + 1) rest
    else
      { row_number := idx + 2, cells := cells } :: extractRows (idx + 1) rest

/-- `CsvParser::parse` from `csv_parser.rs`, modelled on the header record and
the data-record results of the underlying reader: empty headers fail with
`EmptyFile`; `total_rows` counts every data record (the counting pass) plus
the header; the emitted rows are the first `MAX_ROWS` records filtered of
malformed and blank ones; zero emitted rows fail with `EmptyFile`. -/
def CsvParser.parse (fileName : String) (headers : List String)
    (records : List CsvRecord) : Except ImportError ParsedFile :=
  if headers.isEmpty then Except.error ImportError.EmptyFile
  else
    let total_rows := records.length + 1
    let rows := extractRows 0 (records.take MAX_ROWS)
    if rows.isEmpty then Except.error ImportError.EmptyFile
    else Except.ok
      { file_name := fileName
        file_type := FileType.Csv
        headers := headers
        rows := rows
        total_rows := total_rows
        truncated := decide (MAX_ROWS + 1 < total_rows) }

/-- `ExcelParser::parse` from `excel.rs`, modelled on the first worksheet's
cell grid (each cell already converted by `cell_to_string`): an empty range
fails with `EmptyFile`; `total_rows` is the range height; headers are the
first row (empty headers fail with `EmptyFile`); the emitted rows are the
first `MAX_ROWS` data rows filtered of blank ones; zero emitted rows fail
with `EmptyFile`. -/
def ExcelParser.parse (fileName : String) (sheetRange : List (List String)) :
    Except ImportError ParsedFile :=
  if sheetRange.isEmpty then Except.error ImportError.EmptyFile
  else
    let total_rows := sheetRange.length
    let headers := sheetRange.head?.getD []
    if headers.isEmpty then Except.error ImportError.EmptyFile
    else
      let rows := extractRows 0 (((sheetRange.drop 1).map some).take MAX_ROWS)
      if rows.isEmpty then Except.error ImportError.EmptyFile
      else Except.ok
        { file_name := fileName
          file_type := FileType.Xlsx
          headers := headers
          rows := rows
          total_rows := total_rows
          truncated := decide (MAX_ROWS + 1 < total_rows) }

/-! ## Specification-side definitions

`suggestFieldSpec` renders the spec's description of the HeaderMapper
word-for-word, to be compared with `suggest_field_for_header` above: tier 1 is
"the first field (in table declaration order) whose alias list contains the
normalized header exactly", tier 2 the fixed family chain, else no match. -/

/-- Tier 1 as the spec words it: the first table entry whose alias list
contains the normalized header. -/
def tier1LookupSpec (lower : String) : Option EquipmentField :=
  (highConfidenceMappings.find? (fun pf => decide (lower ∈ pf.1))).map Prod.snd

/-- Tier 2 as the spec words it: substring-containment families in fixed
priority order with their confidences. -/
def tier2Spec (lower : String) : Option EquipmentField × ℚ :=
  if ["manufacturer", "mfg", "brand"].any (fun tok => containsSub lower tok) then
    (some EquipmentField.Manufacturer, 0.7)
  else if containsSub lower "model" then
    (some EquipmentField.Model, 0.7)
  else if ["sku", "part", "item"].any (fun tok => containsSub lower tok) then
    (some EquipmentField.Sku, 0.7)
  else if ["cost", "price"].any (fun tok => containsSub lower tok) then
    if ["list", "msrp", "retail"].any (fun tok => containsSub lower tok) then
      (some EquipmentField.Msrp, 0.6)
    else
      (some EquipmentField.Cost, 0.6)
  else if containsSub lower "desc" then
    (some EquipmentField.Description, 0.7)
  else
    (none, 0.0)

/-- The HeaderMapper suggestion as the spec words it: normalize, tier 1 at
0.95, else tier 2, else no suggestion at 0.0. -/
def suggestFieldSpec (header : String) : Option EquipmentField × ℚ :=
  let lower := trimStr (toLowerStr header)
  match tier1LookupSpec lower with
  | some field => (some field, 0.95)
  | none => tier2Spec lower

/-! ## Concrete inputs used in counterexamples and witnesses -/

/-- A row whose first Manufacturer-mapped column is empty while a second,
duplicate Manufacturer mapping points at a non-empty column. -/
def c1Row : ParsedRow := { row_number := 2, cells := ["", "X"] }

/-- Two mappings both targeting `Manufacturer`. -/
def c1Mappings : List ColumnMapping :=
  [ { source_column := 0, source_header := "A",
      target_field := some EquipmentField.Manufacturer },
    { source_column := 1, source_header := "B",
      target_field := some EquipmentField.Manufacturer } ]

/-- A record stream of 10,001 well-formed data records whose first record is
blank: the decoder's `take(MAX_ROWS)` happens before blank filtering, so only
9,999 rows are emitted. -/
def c2Records : List CsvRecord :=
  some [""] :: List.replicate MAX_ROWS (some ["x"])

/-- The `ParsedFile` the CSV decoder produces from headers `["h"]` and the
single record `["x"]`; used by witnesses. -/
def pfCsv1 : ParsedFile :=
  { file_name := "f", file_type := FileType.Csv, headers := ["h"],
    rows := [{ row_number := 2, cells := ["x"] }], total_rows := 2,
    truncated := false }

/-- The `ParsedFile` the workbook decoder produces from the two-row sheet
`[["h"], ["x"]]`; used by witnesses. -/
def pfXlsx1 : ParsedFile :=
  { file_name := "f", file_type := FileType.Xlsx, headers := ["h"],
    rows := [{ row_number := 2, cells := ["x"] }], total_rows := 2,
    truncated := false }

/-- The standard four-column mapping used by witnesses. -/
def stdMappings : List ColumnMapping :=
  [ { source_column := 0, source_header := "Manufacturer",
      target_field := some EquipmentField.Manufacturer },
    { source_column := 1, source_header := "Model",
      target_field := some EquipmentField.Model },
    { source_column := 2, source_header := "SKU",
      target_field := some EquipmentField.Sku },
    { source_column := 3, source_header := "Cost",
      target_field := some EquipmentField.Cost } ]

/-! ## Helper lemmas -/

theorem trimStr_isEmpty_iff (s : String) :
    (trimStr s).isEmpty = true ↔ ∀ c ∈ s.data, c.isWhitespace = true := by
  rw [String.isEmpty_iff]
  constructor
  · intro h c hc
    have hdata : ((s.data.dropWhile Char.isWhitespace).reverse.dropWhile
        Char.isWhitespace).reverse = [] := congrArg String.data h
    rw [List.reverse_eq_nil_iff, List.dropWhile_eq_nil_iff] at hdata
    have hsplit := List.takeWhile_append_dropWhile Char.isWhitespace s.data
    rw [← hsplit] at hc
    rcases List.mem_append.mp hc with h1 | h2
    · exact List.mem_takeWhile_imp h1
    · exact hdata c (List.mem_reverse.mpr h2)
  · intro h
    apply String.ext
    show ((s.data.dropWhile Char.isWhitespace).reverse.dropWhile
        Char.isWhitespace).reverse = []
    rw [List.reverse_eq_nil_iff, List.dropWhile_eq_nil_iff]
    intro x hx
    rw [List.mem_reverse] at hx
    exact h x ((List.dropWhile_sublist _).subset hx)

theorem extractRows_length (i : Nat) (l : List CsvRecord) :
    (extractRows i l).length = l.countP keepRecord := by
  induction l generalizing i with
  | nil => rfl
  | cons r rest ih =>
    cases r with
    | none => simp [extractRows, List.countP_cons, keepRecord, ih]
    | some cells =>
      by_cases h : cells.all (fun c => (trimStr c).isEmpty) = true
      · simp [extractRows, h, List.countP_cons, keepRecord, ih]
      · simp [extractRows, h, List.countP_cons, keepRecord,
          Bool.not_eq_true _ ▸ h, ih]

theorem extractRows_rowNumber_ge (i : Nat) (l : List CsvRecord) :
    ∀ r ∈ extractRows i l, i + 2 ≤ r.row_number := by
  induction l generalizing i with
  | nil => intro r hr; cases hr
  | cons x rest ih =>
    intro r hr
    cases x with
    | none =>
      have := ih (i + 1) r hr
      omega
    | some cells =>
      rw [extractRows] at hr
      split at hr
      · have := ih (i + 1) r hr
        omega
      · rcases List.mem_cons.mp hr with h | h
        · subst h; exact Nat.le_refl _
        · have := ih (i + 1) r h
          omega

theorem extractRows_pairwise (i : Nat) (l : List CsvRecord) :
    List.Pairwise (fun a b => a.row_number < b.row_number) (extractRows i l) := by
  induction l generalizing i with
  | nil => exact List.Pairwise.nil
  | cons x rest ih =>
    cases x with
    | none => exact ih (i + 1)
    | some cells =>
      rw [extractRows]
      split
      · exact ih (i + 1)
      · refine List.Pairwise.cons ?_ (ih (i + 1))
        intro b hb
        have := extractRows_rowNumber_ge (i + 1) rest b hb
        show i + 2 < b.row_number
        omega

theorem extractRows_head? (i : Nat) (l : List CsvRecord) (r : ParsedRow)
    (h : (extractRows i l).head? = some r) :
    r.row_number = i + 2 + (l.takeWhile (fun x => !keepRecord x)).length := by
  induction l generalizing i with
  | nil => simp [extractRows] at h
  | cons x rest ih =>
    cases x with
    | none =>
      rw [extractRows] at h
      have := ih (i + 1) h
      simp only [List.takeWhile_cons, keepRecord, Bool.not_false, if_pos] at *
      rw [this]
      simp [List.length_cons]
      omega
    | some cells =>
      rw [extractRows] at h
      by_cases hb : cells.all (fun c => (trimStr c).isEmpty) = true
      · rw [if_pos hb] at h
        have := ih (i + 1) h
        have hk : (!keepRecord (some cells)) = true := by
          simp [keepRecord, hb]
        rw [List.takeWhile_cons, if_pos hk, List.length_cons]
        omega
      · rw [if_neg hb] at h
        simp only [List.head?_cons, Option.some.injEq] at h
        subst h
        have hk : (!keepRecord (some cells)) = false := by
          simp [keepRecord, hb]
        rw [List.takeWhile_cons, if_neg (by simp [hk]), List.length_nil]

theorem extractRows_eq_nil (i : Nat) (l : List CsvRecord)
    (h : ∀ x ∈ l, keepRecord x = false) : extractRows i l = [] := by
  have hlen : (extractRows i l).length = 0 := by
    rw [extractRows_length, List.countP_eq_zero]
    intro a ha
    simp [h a ha]
  exact List.length_eq_zero.mp hlen

theorem takeWhile_take {α : Type} (p : α → Bool) (n : Nat) (l : List α) :
    (l.take n).takeWhile p = (l.takeWhile p).take n := by
  induction l generalizing n with
  | nil => simp
  | cons a l ih =>
    cases n with
    | zero => simp
    | succ n =>
      by_cases h : p a = true
      · simp [List.take_succ_cons, List.takeWhile_cons, h, ih]
      · simp [List.take_succ_cons, List.takeWhile_cons, h]

theorem csvParse_ok {fn : String} {hs : List String} {records : List CsvRecord}
    {pf : ParsedFile} (h : CsvParser.parse fn hs records = Except.ok pf) :
    pf.headers = hs ∧ pf.rows = extractRows 0 (records.take MAX_ROWS) ∧
    pf.total_rows = records.length + 1 ∧
    pf.truncated = decide (MAX_ROWS + 1 < records.length + 1) := by
  unfold CsvParser.parse at h
  dsimp only at h
  split at h
  · cases h
  · split at h
    · cases h
    · cases h
      exact ⟨rfl, rfl, rfl, rfl⟩

theorem excelParse_ok {fn : String} {sheetRange : List (List String)}
    {pf : ParsedFile} (h : ExcelParser.parse fn sheetRange = Except.ok pf) :
    pf.headers = sheetRange.head?.getD [] ∧
    pf.rows = extractRows 0 (((sheetRange.drop 1).map some).take MAX_ROWS) ∧
    pf.total_rows = sheetRange.length ∧
    pf.truncated = decide (MAX_ROWS + 1 < sheetRange.length) := by
  unfold ExcelParser.parse at h
  dsimp only at h
  split at h
  · cases h
  · split at h
    · cases h
    · split at h
      · cases h
      · cases h
        exact ⟨rfl, rfl, rfl, rfl⟩

theorem costErrors_cases (row : ParsedRow) (mappings : List ColumnMapping) :
    costErrors row mappings = [] ∨
    ∃ s, costErrors row mappings = ["Invalid cost format: '" ++ s ++ "'"] := by
  unfold costErrors
  split
  · split
    · dsimp only
      split
      · exact Or.inr ⟨_, rfl⟩
      · exact Or.inl rfl
    · exact Or.inl rfl
  · exact Or.inl rfl

theorem msrpErrors_cases (row : ParsedRow) (mappings : List ColumnMapping) :
    msrpErrors row mappings = [] ∨
    ∃ s, msrpErrors row mappings = ["Invalid MSRP format: '" ++ s ++ "'"] := by
  unfold msrpErrors
  split
  · split
    · dsimp only
      split
      · exact Or.inr ⟨_, rfl⟩
      · exact Or.inl rfl
    · exact Or.inl rfl
  · exact Or.inl rfl

theorem costMsg_take12 (s : String) :
    ("Invalid cost format: '" ++ s ++ "'").data.take 12 = "Invalid cost".data := by
  rw [String.data_append, String.data_append, List.append_assoc,
    List.take_append_eq_append_take]
  norm_num

theorem msrpMsg_take12 (s : String) :
    ("Invalid MSRP format: '" ++ s ++ "'").data.take 12 = "Invalid MSRP".data := by
  rw [String.data_append, String.data_append, List.append_assoc,
    List.take_append_eq_append_take]
  norm_num

theorem costMsg_ne_msrpMsg (a b : String) :
    ("Invalid cost format: '" ++ a ++ "'") ≠ ("Invalid MSRP format: '" ++ b ++ "'") := by
  intro h
  have h12 : ("Invalid cost format: '" ++ a ++ "'").data.take 12 =
      ("Invalid MSRP format: '" ++ b ++ "'").data.take 12 := by rw [h]
  rw [costMsg_take12, msrpMsg_take12] at h12
  exact absurd h12 (by decide)

theorem findSome?_guard_eq_find?_map {α β : Type} (p : α → Bool) (f : α → β)
    (l : List α) :
    l.findSome? (fun a => if p a then some (f a) else none) = (l.find? p).map f := by
  induction l with
  | nil => rfl
  | cons a l ih =>
    by_cases h : p a = true <;>
      simp [List.findSome?_cons, List.find?_cons, h, ih]

theorem any_beq_eq_decide_mem (l : List String) (a : String) :
    l.any (fun b => a == b) = decide (a ∈ l) := by
  induction l with
  | nil => rfl
  | cons x l ih =>
    simp only [List.any_cons, ih, List.mem_cons]
    by_cases h : a = x
    · subst h; simp
    · simp [h]

theorem tier1Lookup_eq_spec (lower : String) :
    tier1Lookup lower = tier1LookupSpec lower := by
  unfold tier1Lookup tier1LookupSpec
  rw [← findSome?_guard_eq_find?_map]
  congr 1
  funext pf
  rw [any_beq_eq_decide_mem]

/-! ## Claim theorems -/

/-- **C7**: for every header string, the HeaderMapper's suggestion is exactly
the spec's two-tier rule: confidence 0.95 with the matched field when the
lowercased, trimmed header equals a tier-1 alias (first field in declaration
order wins); otherwise the tier-2 substring chain, in fixed priority order, at
confidence 0.7 (manufacturer/model/sku/description) or 0.6 (cost/price family,
resolving to Msrp when the header also contains "list", "msrp" or "retail",
else Cost); otherwise no field and confidence 0.0.  Stated as: the code's
`suggest_field_for_header` coincides with the spec-worded `suggestFieldSpec`. -/
theorem c7_header_suggestion_follows_spec (header : String) :
    suggest_field_for_header header = suggestFieldSpec header := by
  simp only [suggest_field_for_header, suggestFieldSpec]
  rw [tier1Lookup_eq_spec]
  cases tier1LookupSpec (trimStr (toLowerStr header)) with
  | some f => rfl
  | none =>
    simp only [tier2Spec, List.any_cons, List.any_nil, Bool.or_false, Bool.or_assoc]

/-- **C4**: the status of a `ValidationResult` produced by the Validator is
`Invalid` whenever its `errors` list is non-empty (regardless of
`missing_fields`); with empty `errors` it is `Incomplete` iff `missing_fields`
is non-empty; otherwise it is `Valid`. -/
theorem c4_status_priority (row : ParsedRow) (mappings : List ColumnMapping) :
    ((validate_single_row row mappings).errors ≠ [] →
      (validate_single_row row mappings).status = ValidationStatus.Invalid) ∧
    ((validate_single_row row mappings).errors = [] →
      ((validate_single_row row mappings).status = ValidationStatus.Incomplete ↔
        (validate_single_row row mappings).missing_fields ≠ [])) ∧
    ((validate_single_row row mappings).errors = [] →
      (validate_single_row row mappings).missing_fields = [] →
      (validate_single_row row mappings).status = ValidationStatus.Valid) := by
  have hstat : (validate_single_row row mappings).status =
      (if !(costErrors row mappings ++ msrpErrors row mappings).isEmpty then
        ValidationStatus.Invalid
      else if !(missingRequiredFields row mappings).isEmpty then
        ValidationStatus.Incomplete
      else ValidationStatus.Valid) := rfl
  have herr : (validate_single_row row mappings).errors =
      costErrors row mappings ++ msrpErrors row mappings := rfl
  have hmiss : (validate_single_row row mappings).missing_fields =
      missingRequiredFields row mappings := rfl
  rw [hstat, herr, hmiss]
  generalize costErrors row mappings ++ msrpErrors row mappings = errs
  generalize missingRequiredFields row mappings = mf
  rcases errs with _ | ⟨e, es⟩ <;> rcases mf with _ | ⟨f, fs⟩ <;> simp

/-- **C4 witness**: at a concrete row with an unparsable cost, the errors list
is non-empty and the status is `Invalid`. -/
theorem c4_status_priority_witness :
    (validate_single_row { row_number := 1, cells := ["Poly", "X50", "A1", "TBD"] }
      stdMappings).errors ≠ [] ∧
    (validate_single_row { row_number := 1, cells := ["Poly", "X50", "A1", "TBD"] }
      stdMappings).status = ValidationStatus.Invalid :=
  ⟨by decide,
    (c4_status_priority { row_number := 1, cells := ["Poly", "X50", "A1", "TBD"] }
      stdMappings).1 (by decide)⟩

/-- **C5**: `validate_rows` never fails and returns exactly one
`ValidationResult` per input row, in input order, each carrying that row's
`row_number`, with `match_type` initialized to `New` and
`existing_equipment_id` to `none`. -/
theorem c5_one_result_per_row (rows : List ParsedRow) (mappings : List ColumnMapping) :
    ∃ results, validate_rows rows mappings = Except.ok results ∧
      results.length = rows.length ∧
      List.Forall₂ (fun (row : ParsedRow) (res : ValidationResult) =>
        res.row_number = row.row_number ∧ res.match_type = some MatchType.New ∧
        res.existing_equipment_id = none) rows results := by
  refine ⟨rows.map (fun row => validate_single_row row mappings), rfl, by simp, ?_⟩
  rw [List.forall₂_map_right_iff]
  exact List.forall₂_same.mpr (fun x _ => ⟨rfl, rfl, rfl⟩)

/-- **C1 counterexample**: with two mappings both targeting Manufacturer, the
first one pointing at an empty cell and the second at a non-empty one, the
claim predicts Manufacturer missing (presence from the first mapping only),
but the Validator does not report it missing. -/
theorem c1_counterexample :
    c1Mappings.find? (fun m => decide (m.target_field = some EquipmentField.Manufacturer)) =
      some { source_column := 0, source_header := "A",
             target_field := some EquipmentField.Manufacturer } ∧
    (trimStr ((c1Row.cells[(0 : Nat)]?).getD "x")).isEmpty = true ∧
    EquipmentField.Manufacturer ∉ (validate_single_row c1Row c1Mappings).missing_fields := by
  refine ⟨by decide, by decide, by decide⟩

/-- **C1 amended**: for every row and mapping list, a required field is
reported missing iff EVERY mapping targeting it fails to provide a value
(source column absent from the row or trimmed value empty) — i.e. presence is
determined by ANY mapping targeting the field, not only the first one. -/
theorem c1_amended_presence_any_mapping (row : ParsedRow) (mappings : List ColumnMapping)
    (field : EquipmentField) (hf : field ∈ requiredFields) :
    field ∈ (validate_single_row row mappings).missing_fields ↔
      ∀ m ∈ mappings, m.target_field = some field →
        ∀ cell, row.cells[m.source_column]? = some cell →
          (trimStr cell).isEmpty = true := by
  have hmiss : (validate_single_row row mappings).missing_fields =
      missingRequiredFields row mappings := rfl
  rw [hmiss, missingRequiredFields, List.mem_filter]
  simp only [hf, true_and, Bool.not_eq_true']
  unfold hasRequiredValue
  rw [List.any_eq_false]
  constructor
  · intro h m hm htarget cell hcell
    have hx := h m hm
    rw [if_pos htarget, hcell, Bool.not_eq_true] at hx
    simpa using hx
  · intro h m hm
    rw [Bool.not_eq_true]
    by_cases htarget : m.target_field = some field
    · rw [if_pos htarget]
      cases hcell : row.cells[m.source_column]? with
      | none => rfl
      | some cell =>
        have := h m hm htarget cell hcell
        simp [this]
    · rw [if_neg htarget]

/-- **C1 amended witness**: at the concrete duplicate-Manufacturer input no
mapping targets Model, so Model is reported missing. -/
theorem c1_amended_presence_any_mapping_witness :
    EquipmentField.Model ∈ (validate_single_row c1Row c1Mappings).missing_fields :=
  (c1_amended_presence_any_mapping c1Row c1Mappings EquipmentField.Model (by decide)).mpr
    (fun m hm htarget _cell _hcell => by
      rcases List.mem_cons.mp hm with rfl | hm'
      · exact absurd htarget (by decide)
      · rcases List.mem_cons.mp hm' with rfl | h
        · exact absurd htarget (by decide)
        · cases h)

/-- **C6**: for every row whose first Cost-mapped (resp. Msrp-mapped) source
column exists in the row, the error string naming the raw cell value is in the
result's errors iff the `$`/`,`/space-stripped remainder is non-empty and does
not parse as a real number. -/
theorem c6_numeric_guard (row : ParsedRow) (mappings : List ColumnMapping) :
    (∀ m s,
      mappings.find? (fun m => decide (m.target_field = some EquipmentField.Cost)) = some m →
      row.cells[m.source_column]? = some s →
      (("Invalid cost format: '" ++ s ++ "'") ∈ (validate_single_row row mappings).errors ↔
        ((stripMoney s).isEmpty = false ∧ parsesAsF64 (stripMoney s) = false))) ∧
    (∀ m s,
      mappings.find? (fun m => decide (m.target_field = some EquipmentField.Msrp)) = some m →
      row.cells[m.source_column]? = some s →
      (("Invalid MSRP format: '" ++ s ++ "'") ∈ (validate_single_row row mappings).errors ↔
        ((stripMoney s).isEmpty = false ∧ parsesAsF64 (stripMoney s) = false))) := by
  have herr : (validate_single_row row mappings).errors =
      costErrors row mappings ++ msrpErrors row mappings := rfl
  constructor
  · intro m s hm hs
    have hc : costErrors row mappings =
        (if !(stripMoney s).isEmpty && !parsesAsF64 (stripMoney s) then
          ["Invalid cost format: '" ++ s ++ "'"] else []) := by
      unfold costErrors
      rw [hm]
      simp only [hs]
    rw [herr]
    cases hb : (!(stripMoney s).isEmpty && !parsesAsF64 (stripMoney s)) with
    | true =>
      rw [Bool.and_eq_true, Bool.not_eq_true', Bool.not_eq_true'] at hb
      rw [hc, hb.1, hb.2]
      simp
    | false =>
      rw [hc, if_neg (by simp [hb]), List.nil_append]
      constructor
      · intro hmem
        rcases msrpErrors_cases row mappings with hnil | ⟨x, hx⟩
        · rw [hnil] at hmem; cases hmem
        · rw [hx] at hmem
          rcases List.mem_singleton.mp hmem with heq
          exact absurd heq (costMsg_ne_msrpMsg s x)
      · rintro ⟨h1, h2⟩
        rw [h1, h2] at hb
        cases hb
  · intro m s hm hs
    have hc : msrpErrors row mappings =
        (if !(stripMoney s).isEmpty && !parsesAsF64 (stripMoney s) then
          ["Invalid MSRP format: '" ++ s ++ "'"] else []) := by
      unfold msrpErrors
      rw [hm]
      simp only [hs]
    rw [herr]
    cases hb : (!(stripMoney s).isEmpty && !parsesAsF64 (stripMoney s)) with
    | true =>
      rw [Bool.and_eq_true, Bool.not_eq_true', Bool.not_eq_true'] at hb
      rw [hc, hb.1, hb.2]
      simp
    | false =>
      rw [hc, if_neg (by simp [hb]), List.append_nil]
      constructor
      · intro hmem
        rcases costErrors_cases row mappings with hnil | ⟨x, hx⟩
        · rw [hnil] at hmem; cases hmem
        · rw [hx] at hmem
          rcases List.mem_singleton.mp hmem with heq
          exact absurd heq.symm (costMsg_ne_msrpMsg x s)
      · rintro ⟨h1, h2⟩
        rw [h1, h2] at hb
        cases hb

/-- **C6 witness**: at the concrete row with cost cell "TBD", the cost error
naming "TBD" is emitted; at cost cell "2500.00" it is not. -/
theorem c6_numeric_guard_witness :
    ("Invalid cost format: '" ++ "TBD" ++ "'") ∈
      (validate_single_row { row_number := 1, cells := ["Poly", "X50", "A1", "TBD"] }
        stdMappings).errors :=
  ((c6_numeric_guard { row_number := 1, cells := ["Poly", "X50", "A1", "TBD"] }
      stdMappings).1
    { source_column := 3, source_header := "Cost",
      target_field := some EquipmentField.Cost }
    "TBD" (by decide) (by decide)).mpr ⟨by decide, by decide⟩

/-- **C10**: a Cost-mapped cell made only of '$', ',' and space characters
with at least one non-space character makes Cost count as present (trimmed
cell non-empty) while emitting no cost-format error (stripped remainder
empty); the witness shows such a row reaching status Valid. -/
theorem c10_money_only_cost_cell (row : ParsedRow) (mappings : List ColumnMapping)
    (m : ColumnMapping) (s : String)
    (hm : mappings.find? (fun m => decide (m.target_field = some EquipmentField.Cost)) =
      some m)
    (hs : row.cells[m.source_column]? = some s)
    (hchars : ∀ c ∈ s.data, c = '$' ∨ c = ',' ∨ c = ' ')
    (hnonspace : ∃ c ∈ s.data, c ≠ ' ') :
    EquipmentField.Cost ∉ (validate_single_row row mappings).missing_fields ∧
    ∀ e ∈ (validate_single_row row mappings).errors,
      e.data.take 12 ≠ "Invalid cost".data := by
  have herr : (validate_single_row row mappings).errors =
      costErrors row mappings ++ msrpErrors row mappings := rfl
  have hmiss : (validate_single_row row mappings).missing_fields =
      missingRequiredFields row mappings := rfl
  constructor
  · -- Cost is present: mapping `m` provides a non-empty trimmed value.
    rw [hmiss, missingRequiredFields, List.mem_filter]
    rintro ⟨-, hcontra⟩
    rw [Bool.not_eq_true'] at hcontra
    have hval : hasRequiredValue row mappings EquipmentField.Cost = true := by
      unfold hasRequiredValue
      rw [List.any_eq_true]
      refine ⟨m, List.mem_of_find?_eq_some hm, ?_⟩
      have hp := List.find?_some hm
      rw [decide_eq_true_eq] at hp
      rw [if_pos hp, hs]
      have : (trimStr s).isEmpty = false := by
        cases hemp : (trimStr s).isEmpty with
        | false => rfl
        | true =>
          obtain ⟨c, hc, hcne⟩ := hnonspace
          have hws := (trimStr_isEmpty_iff s).mp hemp c hc
          rcases hchars c hc with rfl | rfl | rfl
          · cases hws
          · cases hws
          · exact absurd rfl hcne
      simp [this]
    rw [hval] at hcontra
    cases hcontra
  · -- No cost-format error: the stripped remainder is empty.
    have hclean : stripMoney s = "" := by
      apply String.ext
      show s.data.filter (fun c => !(c == '$' || c == ',' || c == ' ')) = []
      rw [List.filter_eq_nil_iff]
      intro c hc
      rcases hchars c hc with rfl | rfl | rfl <;> decide
    have hcost : costErrors row mappings = [] := by
      unfold costErrors
      rw [hm]
      simp only [hs]
      rw [if_neg]
      rw [hclean]
      decide
    rw [herr, hcost, List.nil_append]
    intro e he
    rcases msrpErrors_cases row mappings with hnil | ⟨x, hx⟩
    · rw [hnil] at he; cases he
    · rw [hx] at he
      rw [List.mem_singleton.mp he, msrpMsg_take12]
      decide

/-- **C10 witness**: a row whose Cost cell is `"$"` and whose other required
cells are filled is reported Valid, with Cost present and no errors. -/
theorem c10_money_only_cost_cell_witness :
    EquipmentField.Cost ∉
      (validate_single_row { row_number := 2, cells := ["Poly", "X50", "A1", "$"] }
        stdMappings).missing_fields ∧
    (validate_single_row { row_number := 2, cells := ["Poly", "X50", "A1", "$"] }
      stdMappings).status = ValidationStatus.Valid :=
  ⟨(c10_money_only_cost_cell
      { row_number := 2, cells := ["Poly", "X50", "A1", "$"] } stdMappings
      { source_column := 3, source_header := "Cost",
        target_field := some EquipmentField.Cost }
      "$" (by decide) (by decide) (by decide) (by decide)).1,
    by decide⟩

/-- **C3**: for every input on which either decoder succeeds, `truncated` is
true iff `total_rows > MAX_ROWS + 1`, where `total_rows` counts the header row
plus every data row of the source including blank and malformed ones. -/
theorem c3_truncated_iff :
    (∀ fn hs records pf, CsvParser.parse fn hs records = Except.ok pf →
      ((pf.truncated = true ↔ MAX_ROWS + 1 < pf.total_rows) ∧
        pf.total_rows = records.length + 1)) ∧
    (∀ fn sheetRange pf, ExcelParser.parse fn sheetRange = Except.ok pf →
      ((pf.truncated = true ↔ MAX_ROWS + 1 < pf.total_rows) ∧
        pf.total_rows = sheetRange.length)) := by
  constructor
  · intro fn hs records pf h
    obtain ⟨-, -, htot, htr⟩ := csvParse_ok h
    refine ⟨?_, htot⟩
    rw [htr, htot, decide_eq_true_eq]
  · intro fn sheetRange pf h
    obtain ⟨-, -, htot, htr⟩ := excelParse_ok h
    refine ⟨?_, htot⟩
    rw [htr, htot, decide_eq_true_eq]

/-- **C3 witness**: concrete one-record decodes on both decoders satisfy the
truncation law with `truncated = false` and the stated `total_rows`. -/
theorem c3_truncated_iff_witness :
    ((pfCsv1.truncated = true ↔ MAX_ROWS + 1 < pfCsv1.total_rows) ∧
      pfCsv1.total_rows = ([some ["x"]] : List CsvRecord).length + 1) ∧
    ((pfXlsx1.truncated = true ↔ MAX_ROWS + 1 < pfXlsx1.total_rows) ∧
      pfXlsx1.total_rows = ([["h"], ["x"]] : List (List String)).length) :=
  ⟨c3_truncated_iff.1 "f" ["h"] [some ["x"]] pfCsv1 rfl,
   c3_truncated_iff.2 "f" [["h"], ["x"]] pfXlsx1 rfl⟩

/-- **C9**: decode fails with `EmptyFile` when the source yields zero headers,
and when headers are present but there are zero usable data rows (every record
blank after trimming or malformed) — in particular on a header-only file. -/
theorem c9_empty_file :
    (∀ fn records, CsvParser.parse fn [] records = Except.error ImportError.EmptyFile) ∧
    (∀ fn hs records, (∀ r ∈ records, keepRecord r = false) →
      CsvParser.parse fn hs records = Except.error ImportError.EmptyFile) ∧
    (∀ fn hs, CsvParser.parse fn hs [] = Except.error ImportError.EmptyFile) ∧
    (∀ fn sheetRange, sheetRange.head?.getD [] = ([] : List String) →
      ExcelParser.parse fn sheetRange = Except.error ImportError.EmptyFile) ∧
    (∀ fn sheetRange,
      (∀ cells ∈ sheetRange.drop 1, ∀ c ∈ cells, (trimStr c).isEmpty = true) →
      ExcelParser.parse fn sheetRange = Except.error ImportError.EmptyFile) := by
  refine ⟨?_, ?_, ?_, ?_, ?_⟩
  · intro fn records
    unfold CsvParser.parse
    rfl
  · intro fn hs records hall
    unfold CsvParser.parse
    dsimp only
    by_cases hhs : hs.isEmpty = true
    · rw [if_pos hhs]
    · rw [if_neg hhs]
      have hrows : extractRows 0 (records.take MAX_ROWS) = [] :=
        extractRows_eq_nil _ _ (fun x hx => hall x (List.take_subset _ _ hx))
      rw [hrows]
      rfl
  · intro fn hs
    unfold CsvParser.parse
    dsimp only
    by_cases hhs : hs.isEmpty = true
    · rw [if_pos hhs]
    · rw [if_neg hhs]
      rfl
  · intro fn sheetRange hhead
    unfold ExcelParser.parse
    dsimp only
    by_cases hre : sheetRange.isEmpty = true
    · rw [if_pos hre]
    · rw [if_neg hre, hhead]
      rfl
  · intro fn sheetRange hall
    unfold ExcelParser.parse
    dsimp only
    by_cases hre : sheetRange.isEmpty = true
    · rw [if_pos hre]
    · rw [if_neg hre]
      by_cases hh : (sheetRange.head?.getD []).isEmpty = true
      · rw [if_pos hh]
      · rw [if_neg hh]
        have hrows :
            extractRows 0 (((sheetRange.drop 1).map some).take MAX_ROWS) = [] := by
          apply extractRows_eq_nil
          intro x hx
          have hx' := List.take_subset _ _ hx
          obtain ⟨cells, hcells, rfl⟩ := List.mem_map.mp hx'
          show (!cells.all fun c => (trimStr c).isEmpty) = false
          have : cells.all (fun c => (trimStr c).isEmpty) = true :=
            List.all_eq_true.mpr (fun c hc => hall cells hcells c hc)
          rw [this]
          rfl
        rw [hrows]
        rfl

/-- **C9 witness**: a header-only CSV and a CSV whose records are all blank or
malformed both fail with `EmptyFile`. -/
theorem c9_empty_file_witness :
    CsvParser.parse "f" ["h"] [] = Except.error ImportError.EmptyFile ∧
    CsvParser.parse "f" ["h"] [some ["", " "], none] =
      Except.error ImportError.EmptyFile ∧
    ExcelParser.parse "f" [["h"], ["", ""]] = Except.error ImportError.EmptyFile :=
  ⟨c9_empty_file.2.2.1 "f" ["h"],
   c9_empty_file.2.1 "f" ["h"] [some ["", " "], none] (by decide),
   c9_empty_file.2.2.2.2 "f" [["h"], ["", ""]] (by decide)⟩

/-- **C2 counterexample**: on a well-formed record stream of 10,001 records
whose first record is blank, decode succeeds with 9,999 rows, while the number
of non-blank data rows capped at MAX_ROWS is 10,000 — `take(MAX_ROWS)` runs
before blank filtering, so the claimed count is wrong. -/
theorem c2_counterexample :
    (CsvParser.parse "f" ["h"] c2Records).map (fun pf => pf.rows.length) =
      Except.ok 9999 ∧
    min (c2Records.countP keepRecord) MAX_ROWS = 10000 := by
  have hkeep0 : keepRecord (some [""]) = false := rfl
  have hkeep1 : keepRecord (some ["x"]) = true := rfl
  have htake : c2Records.take MAX_ROWS =
      some [""] :: List.replicate 9999 (some ["x"]) := by
    show (some [""] :: List.replicate MAX_ROWS (some ["x"])).take MAX_ROWS = _
    rw [show MAX_ROWS = 9999 + 1 from rfl, List.take_succ_cons, List.take_replicate]
    norm_num
  have hlen : (extractRows 0 (c2Records.take MAX_ROWS)).length = 9999 := by
    rw [extractRows_length, htake, List.countP_cons, List.countP_replicate,
      hkeep0, hkeep1]
    norm_num
  constructor
  · have hne : ¬((extractRows 0 (c2Records.take MAX_ROWS)).isEmpty = true) := by
      rw [List.isEmpty_iff]
      intro h0
      rw [h0] at hlen
      exact absurd hlen (by decide)
    unfold CsvParser.parse
    dsimp only
    rw [if_neg (by decide), if_neg hne]
    show Except.ok (extractRows 0 (c2Records.take MAX_ROWS)).length = Except.ok 9999
    rw [hlen]
  · have hcount : c2Records.countP keepRecord = 10000 := by
      show (some [""] :: List.replicate MAX_ROWS (some ["x"])).countP keepRecord = 10000
      rw [List.countP_cons, List.countP_replicate, hkeep0, hkeep1]
      rfl
    rw [hcount]
    decide

/-- **C2 amended**: for every successfully decoded input, the number of
emitted rows equals the number of usable (well-formed, non-blank) data rows
among the FIRST `MAX_ROWS` data records of the source — the cap is applied
before blank filtering — and in particular never exceeds `MAX_ROWS`. -/
theorem c2_amended_row_count :
    (∀ fn hs records pf, CsvParser.parse fn hs records = Except.ok pf →
      (pf.rows.length = (records.take MAX_ROWS).countP keepRecord ∧
        pf.rows.length ≤ MAX_ROWS)) ∧
    (∀ fn sheetRange pf, ExcelParser.parse fn sheetRange = Except.ok pf →
      (pf.rows.length = ((sheetRange.drop 1).take MAX_ROWS).countP
          (fun cells => !cells.all (fun c => (trimStr c).isEmpty)) ∧
        pf.rows.length ≤ MAX_ROWS)) := by
  constructor
  · intro fn hs records pf h
    obtain ⟨-, hrows, -, -⟩ := csvParse_ok h
    rw [hrows, extractRows_length]
    refine ⟨rfl, ?_⟩
    calc (records.take MAX_ROWS).countP keepRecord
        ≤ (records.take MAX_ROWS).length := List.countP_le_length _
      _ ≤ MAX_ROWS := by
          rw [List.length_take]
          exact Nat.min_le_left _ _
  · intro fn sheetRange pf h
    obtain ⟨-, hrows, -, -⟩ := excelParse_ok h
    rw [hrows, extractRows_length]
    constructor
    · rw [← List.map_take, List.countP_map]
      rfl
    · calc (((sheetRange.drop 1).map some).take MAX_ROWS).countP keepRecord
          ≤ (((sheetRange.drop 1).map some).take MAX_ROWS).length :=
            List.countP_le_length _
        _ ≤ MAX_ROWS := by
            rw [List.length_take]
            exact Nat.min_le_left _ _

/-- **C2 amended witness**: a concrete two-record stream with one blank record
decodes to exactly one row, within the cap. -/
theorem c2_amended_row_count_witness :
    CsvParser.parse "f" ["h"] [some [""], some ["x"]] =
      Except.ok (ParsedFile.mk "f" FileType.Csv ["h"] [ParsedRow.mk 3 ["x"]] 3 false) ∧
    (ParsedFile.mk "f" FileType.Csv ["h"] [ParsedRow.mk 3 ["x"]] 3 false).rows.length ≤
      MAX_ROWS :=
  ⟨rfl,
   (c2_amended_row_count.1 "f" ["h"] [some [""], some ["x"]]
     (ParsedFile.mk "f" FileType.Csv ["h"] [ParsedRow.mk 3 ["x"]] 3 false) rfl).2⟩

/-- **C8**: in every successfully decoded `ParsedFile`, row numbers are
strictly increasing (hence pairwise distinct), every row number is at least 2,
and the first emitted row's number is 2 plus the number of source data rows
dropped (blank or malformed) before it, preserving source-numbering gaps. -/
theorem c8_row_number_invariants :
    (∀ fn hs records pf, CsvParser.parse fn hs records = Except.ok pf →
      (List.Pairwise (fun a b => a.row_number < b.row_number) pf.rows ∧
       List.Pairwise (fun a b => a.row_number ≠ b.row_number) pf.rows ∧
       (∀ r ∈ pf.rows, 2 ≤ r.row_number) ∧
       (∀ r, pf.rows.head? = some r →
         r.row_number =
           2 + (records.takeWhile (fun x => !keepRecord x)).length))) ∧
    (∀ fn sheetRange pf, ExcelParser.parse fn sheetRange = Except.ok pf →
      (List.Pairwise (fun a b => a.row_number < b.row_number) pf.rows ∧
       List.Pairwise (fun a b => a.row_number ≠ b.row_number) pf.rows ∧
       (∀ r ∈ pf.rows, 2 ≤ r.row_number) ∧
       (∀ r, pf.rows.head? = some r →
         r.row_number =
           2 + ((sheetRange.drop 1).takeWhile
             (fun cells => cells.all (fun c => (trimStr c).isEmpty))).length))) := by
  have main : ∀ (L : List CsvRecord) (r : ParsedRow),
      (extractRows 0 (L.take MAX_ROWS)).head? = some r →
      r.row_number = 2 + (L.takeWhile (fun x => !keepRecord x)).length := by
    intro L r hr
    have h1 := extractRows_head? 0 (L.take MAX_ROWS) r hr
    rw [takeWhile_take] at h1
    have htwl : (L.takeWhile (fun x => !keepRecord x)).length ≤ MAX_ROWS := by
      by_contra hgt
      push_neg at hgt
      have hnil : extractRows 0 (L.take MAX_ROWS) = [] := by
        apply extractRows_eq_nil
        intro x hx
        have hsplit : L.take MAX_ROWS =
            (L.takeWhile (fun x => !keepRecord x)).take MAX_ROWS := by
          conv_lhs =>
            rw [← List.takeWhile_append_dropWhile (fun x => !keepRecord x) L]
          rw [List.take_append_eq_append_take,
            Nat.sub_eq_zero_of_le (Nat.le_of_lt hgt), List.take_zero,
            List.append_nil]
        rw [hsplit] at hx
        have hmem := List.mem_takeWhile_imp (List.take_subset _ _ hx)
        rw [Bool.not_eq_true'] at hmem
        exact hmem
      rw [hnil] at hr
      cases hr
    rw [List.take_of_length_le htwl] at h1
    omega
  constructor
  · intro fn hs records pf h
    obtain ⟨-, hrows, -, -⟩ := csvParse_ok h
    rw [hrows]
    refine ⟨extractRows_pairwise 0 _,
      (extractRows_pairwise 0 _).imp (fun hlt => Nat.ne_of_lt hlt),
      fun r hr => extractRows_rowNumber_ge 0 _ r hr,
      fun r hr => main records r hr⟩
  · intro fn sheetRange pf h
    obtain ⟨-, hrows, -, -⟩ := excelParse_ok h
    rw [hrows]
    refine ⟨extractRows_pairwise 0 _,
      (extractRows_pairwise 0 _).imp (fun hlt => Nat.ne_of_lt hlt),
      fun r hr => extractRows_rowNumber_ge 0 _ r hr,
      fun r hr => ?_⟩
    have h1 := main ((sheetRange.drop 1).map some) r hr
    rw [List.takeWhile_map, List.length_map] at h1
    have hfun : ((fun x => !keepRecord x) ∘ some) =
        (fun cells => cells.all (fun c => (trimStr c).isEmpty)) := by
      funext cells
      show (!keepRecord (some cells)) = _
      simp [keepRecord]
    rw [hfun] at h1
    exact h1

/-- **C8 witness**: a concrete decode whose first data record is blank emits
its first row with number 3 = 2 + 1 dropped row, at least 2, pairwise
ordered. -/
theorem c8_row_number_invariants_witness :
    List.Pairwise (fun a b => a.row_number < b.row_number)
      (ParsedFile.mk "f" FileType.Csv ["h"] [ParsedRow.mk 3 ["x"]] 3 false).rows ∧
    (∀ r ∈ (ParsedFile.mk "f" FileType.Csv ["h"] [ParsedRow.mk 3 ["x"]] 3 false).rows,
      2 ≤ r.row_number) ∧
    (∀ r, (ParsedFile.mk "f" FileType.Csv ["h"]
        [ParsedRow.mk 3 ["x"]] 3 false).rows.head? = some r →
      r.row_number =
        2 + (([some [""], some ["x"]] : List CsvRecord).takeWhile
          (fun x => !keepRecord x)).length) :=
  have h := c8_row_number_invariants.1 "f" ["h"] [some [""], some ["x"]]
    (ParsedFile.mk "f" FileType.Csv ["h"] [ParsedRow.mk 3 ["x"]] 3 false) rfl
  ⟨h.1, h.2.2.1, h.2.2.2⟩

end AvDesigner
